import Mathlib

/-!
# Verification of the e-commerce record service (src/app.py)

A shallow embedding of the Flask/SQLAlchemy endpoint handlers in `src/app.py`.
The relational store is a `State` of four relations (users, products, orders
and the order-product join rows) plus the autoincrement counters of the three
primary keys.  Each endpoint handler becomes a pure function from a `State`
(and its request payload) to a result paired with the successor `State`; an
error path that returns before `db.session.commit` leaves the state component
unchanged, exactly as the handler does.

Modelling choices, each noted at its definition:
* `datetime` values become `Nat` timestamps; `datetime.utcnow()` becomes an
  explicit `now : Nat` argument of `create_order`.
* `price` is a `Float` in the source but no claim performs float arithmetic,
  so it is modelled as `Int` (the only operation used is the `< 0` check).
* marshmallow's `fields.Email` format validator is library code outside the
  repository; it is modelled from the spec as a simple syntactic check.
-/

namespace EcommerceApi

/-- A row of the `users` table (src/app.py lines 54-63): id (PK), name,
optional address, email. -/
structure User where
  id : Nat
  name : String
  address : Option String
  email : String
deriving Repr, DecidableEq

/-- A row of the `products` table (src/app.py lines 81-89): id (PK),
product_name, price.  `price` is `Float` in the source; modelled as `Int`
since the handlers only compare it with 0. -/
structure Product where
  id : Nat
  product_name : String
  price : Int
deriving Repr, DecidableEq

/-- A row of the `orders` table (src/app.py lines 67-77): id (PK),
order_date (a timestamp, modelled as `Nat`), user_id (FK to users). -/
structure Order where
  id : Nat
  order_date : Nat
  user_id : Nat
deriving Repr, DecidableEq

/-- The relational store: the three entity tables, the `order_product`
association table (src/app.py lines 42-48) as a list of
(order_id, product_id) pairs, and the autoincrement counter of each
primary key. -/
structure State where
  users : List User
  products : List Product
  orders : List Order
  joins : List (Nat × Nat)
  nextUserId : Nat
  nextProductId : Nat
  nextOrderId : Nat
deriving Repr, DecidableEq

/-- The distinct error responses the handlers in src/app.py produce.
Each constructor records one literal (status, message) shape of the source;
`productsNotFound` carries the list of missing ids interpolated into the
message at line 334. -/
inductive Err where
  /-- 400, marshmallow schema validation failure (missing/malformed field). -/
  | validationErr : Err
  /-- 400 "Invalid user id". -/
  | invalidUserId : Err
  /-- 400 "Invalid product id". -/
  | invalidProductId : Err
  /-- 400 "Invalid order id". -/
  | invalidOrderId : Err
  /-- 400 "Invalid order or product id". -/
  | invalidOrderOrProductId : Err
  /-- 400 "Email already exists". -/
  | emailExists : Err
  /-- 404 "Products not found: [missing]" with the missing ids. -/
  | productsNotFound : List Nat → Err
  /-- 404 "Product not in order". -/
  | productNotInOrder : Err
  /-- 400 "Invalid user_id or foreign key constraint failed"
  (IntegrityError surfaced at commit, src/app.py line 344). -/
  | integrityErr : Err
deriving Repr, DecidableEq

/-- The three error kinds of the spec (section 7). -/
inductive ErrKind where
  | validation : ErrKind
  | notFound : ErrKind
  | conflict : ErrKind
deriving Repr, DecidableEq

/-- The spec's classification of each concrete response of the source into
its error kind (spec section 7): the 400 invalid-id responses and the 404s
about referenced entities are NotFoundError, the duplicate-email response
and the commit-time integrity failure are ConflictError, and schema
failures are ValidationError. -/
def Err.kind : Err → ErrKind
  | .validationErr => .validation
  | .invalidUserId => .notFound
  | .invalidProductId => .notFound
  | .invalidOrderId => .notFound
  | .invalidOrderOrProductId => .notFound
  | .productsNotFound _ => .notFound
  | .productNotInOrder => .notFound
  | .emailExists => .conflict
  | .integrityErr => .conflict

/-- Modelled from the spec: the email-format validation performed by
marshmallow's `fields.Email` (src/app.py line 99) is library code not in
this repository; the spec only requires "valid email syntax", modelled as
the presence of an at-sign. -/
def isEmailFormat (e : String) : Bool :=
  e.data.any (fun c => c = '@')

/-- The JSON body of a create/update user request: each field is `none`
when absent.  `address` may be supplied as JSON null (`some none`). -/
structure UserPayload where
  name : Option String
  email : Option String
  address : Option (Option String)
deriving Repr, DecidableEq

/-- The JSON body of a create/update product request. -/
structure ProductPayload where
  product_name : Option String
  price : Option Int
deriving Repr, DecidableEq

/-- The JSON body of a create order request: `product_ids` is optional
(absent means the empty list, src/app.py line 323). -/
structure OrderPayload where
  user_id : Option Nat
  order_date : Option Nat
  product_ids : Option (List Nat)
deriving Repr, DecidableEq

/-- POST /users (src/app.py lines 155-177): schema validation (name
required and non-empty, email required and well-formed), then the unique
email pre-check, then insert with the next generated id. -/
def create_user (s : State) (p : UserPayload) : Except Err User × State :=
  match p.name, p.email with
  | some n, some e =>
    if n.length < 1 ∨ ¬ isEmailFormat e then (.error .validationErr, s)
    else if s.users.any (fun u => u.email = e) then (.error .emailExists, s)
    else
      let u : User := ⟨s.nextUserId, n, p.address.getD none, e⟩
      (.ok u, { s with users := s.users ++ [u], nextUserId := s.nextUserId + 1 })
  | _, _ => (.error .validationErr, s)

/-- PUT /users/user_id (src/app.py lines 197-220): look up the user,
validate the supplied subset of fields, re-check email uniqueness only when
a changed email is supplied, then merge field-by-field with
`payload.get(field, current)`. -/
def update_user (s : State) (uid : Nat) (p : UserPayload) :
    Except Err Unit × State :=
  match s.users.find? (fun u => u.id = uid) with
  | none => (.error .invalidUserId, s)
  | some u =>
    if p.name.any (fun n => n.length < 1) then
      (.error .validationErr, s)
    else if p.email.any (fun e => !isEmailFormat e) then
      (.error .validationErr, s)
    else if p.email.any (fun e => e != u.email && s.users.any (fun v => v.email = e)) then
      (.error .emailExists, s)
    else
      let u' : User :=
        ⟨u.id, p.name.getD u.name, p.address.getD u.address, p.email.getD u.email⟩
      (.ok (), { s with
        users := s.users.map (fun v => if v.id = uid then u' else v) })

/-- DELETE /users/user_id (src/app.py lines 224-231): deleting a user
cascades to its orders (`cascade='all, delete-orphan'` on `User.orders`,
lines 61-63) and deleting those orders removes their association rows. -/
def delete_user (s : State) (uid : Nat) : Except Err Unit × State :=
  match s.users.find? (fun u => u.id = uid) with
  | none => (.error .invalidUserId, s)
  | some _ =>
    let deadIds := (s.orders.filter (fun o => o.user_id = uid)).map (fun o => o.id)
    (.ok (), { s with
      users := s.users.filter (fun u => ¬ u.id = uid),
      orders := s.orders.filter (fun o => ¬ o.user_id = uid),
      joins := s.joins.filter (fun j => ¬ deadIds.contains j.1) })

/-- PUT /products/product_id (src/app.py lines 267-281): partial update of
product_name and price, validating each supplied field. -/
def update_product (s : State) (pid : Nat) (p : ProductPayload) :
    Except Err Unit × State :=
  match s.products.find? (fun pr => pr.id = pid) with
  | none => (.error .invalidProductId, s)
  | some pr =>
    if p.product_name.any (fun n => n.length < 1) then
      (.error .validationErr, s)
    else if p.price.any (fun c => c < 0) then
      (.error .validationErr, s)
    else
      let pr' : Product := ⟨pr.id, p.product_name.getD pr.product_name, p.price.getD pr.price⟩
      (.ok (), { s with
        products := s.products.map (fun q => if q.id = pid then pr' else q) })

/-- POST /orders (src/app.py lines 298-346).  The schema load (line 304)
requires both user_id and order_date (`OrderSchema` marks order_date
`required=True`, line 122), so an absent order_date is rejected with a
validation error before the `order_date_val or datetime.utcnow()` fallback
at line 319 can run: that fallback, and the column default at line 70, are
unreachable.  Then the missing-products check (lines 327-334) runs before
any insertion, join rows are built by appending each product returned by
the IN-query once (lines 335-337), and a dangling user_id surfaces as an
IntegrityError at commit (lines 340-344), modelled as the final
existence check on users. -/
def create_order (s : State) (now : Nat) (p : OrderPayload) :
    Except Err Order × State :=
  match p.user_id, p.order_date with
  | some uid, some d =>
    let pids := p.product_ids.getD []
    let found := s.products.filter (fun pr => pids.contains pr.id)
    let foundIds := found.map (fun pr => pr.id)
    let missing := pids.filter (fun pid => ¬ foundIds.contains pid)
    if missing ≠ [] then (.error (.productsNotFound missing), s)
    else if s.users.all (fun u => ¬ u.id = uid) then (.error .integrityErr, s)
    else
      let o : Order := ⟨s.nextOrderId, d, uid⟩
      (.ok o, { s with
        orders := s.orders ++ [o],
        joins := s.joins ++ found.map (fun pr => (o.id, pr.id)),
        nextOrderId := s.nextOrderId + 1 })
  | _, _ => (.error .validationErr, s)

/-- PUT /orders/order_id/add_product/product_id (src/app.py lines
350-363): 400 if either id is unknown; if the product is already in the
order's collection (a join row exists) return 200 without touching the
store; else append the join row. -/
def add_product_to_order (s : State) (oid pid : Nat) :
    Except Err Unit × State :=
  match s.orders.find? (fun o => o.id = oid),
        s.products.find? (fun pr => pr.id = pid) with
  | some _, some pr =>
    if s.joins.contains (oid, pr.id) then (.ok (), s)
    else (.ok (), { s with joins := s.joins ++ [(oid, pr.id)] })
  | _, _ => (.error .invalidOrderOrProductId, s)

/-- DELETE /orders/order_id/remove_product/product_id (src/app.py lines
367-380): 400 if either id is unknown, 404 if the join row is absent, else
delete the join row. -/
def remove_product_from_order (s : State) (oid pid : Nat) :
    Except Err Unit × State :=
  match s.orders.find? (fun o => o.id = oid),
        s.products.find? (fun pr => pr.id = pid) with
  | some _, some pr =>
    if s.joins.contains (oid, pr.id) then
      (.ok (), { s with joins := s.joins.filter (fun j => ¬ j = (oid, pr.id)) })
    else (.error .productNotInOrder, s)
  | _, _ => (.error .invalidOrderOrProductId, s)

/-- GET /orders/user/user_id (src/app.py lines 384-388): no existence
check on user_id; select the user's orders and sort them by order_date
descending. -/
def get_orders_for_user (s : State) (uid : Nat) : List Order :=
  (s.orders.filter (fun o => o.user_id = uid)).mergeSort
    (fun a b => b.order_date ≤ a.order_date)

/-- GET /orders/order_id/products (src/app.py lines 392-397): 400 if the
order id is unknown; else the order's products, one per join row of the
order (the association SELECT produces one product row per matching
`order_product` row). -/
def get_products_for_order (s : State) (oid : Nat) :
    Except Err (List Product) :=
  match s.orders.find? (fun o => o.id = oid) with
  | none => .error .invalidOrderId
  | some _ =>
    .ok ((s.joins.filter (fun j => j.1 = oid)).filterMap
      (fun j => s.products.find? (fun pr => pr.id = j.2)))

/-! ## Helper lemmas -/

/-- `find?` on a list whose entry with key `i` has been replaced (as the
update handlers do with `List.map` over an `if` on the key) returns the
replacement whenever the original `find?` succeeded. -/
lemma find?_map_update {α : Type} (f : α → Nat) (l : List α) (i : Nat)
    (u' : α) (hid : f u' = i) :
    ∀ u, l.find? (fun v => f v = i) = some u →
      (l.map (fun v => if f v = i then u' else v)).find? (fun v => f v = i) = some u' := by
  induction l with
  | nil => intro u hu; simp at hu
  | cons v l ih =>
    intro u hu
    by_cases hv : f v = i
    · simp [hv, hid]
    · rw [List.find?_cons_of_neg _ (by simp [hv])] at hu
      rw [List.map_cons, List.find?_cons_of_neg _ (by simp [hv])]
      exact ih u hu

/-- Replacing the entry with key `i` by itself is the identity, when keys
are unique in the list. -/
lemma map_update_id {α : Type} (f : α → Nat) (l : List α) (i : Nat) (u : α)
    (hmem : u ∈ l) (hid : f u = i) (hnd : (l.map f).Nodup) :
    l.map (fun v => if f v = i then u else v) = l := by
  have h : ∀ v ∈ l, (if f v = i then u else v) = v := by
    intro v hv
    by_cases hfv : f v = i
    · have : v = u := List.inj_on_of_nodup_map hnd hv hmem (by rw [hfv, hid])
      simp [hfv, this]
    · simp [hfv]
  calc l.map (fun v => if f v = i then u else v) = l.map id := List.map_congr_left h
    _ = l := List.map_id l

/-- `find?` by key returns the member itself when keys are unique. -/
lemma find?_key_self {α : Type} (f : α → Nat) (l : List α)
    (hnd : (l.map f).Nodup) (x : α) (hmem : x ∈ l) :
    l.find? (fun v => f v = f x) = some x := by
  have hs : (l.find? (fun v => f v = f x)).isSome :=
    List.find?_isSome.mpr ⟨x, hmem, by simp⟩
  obtain ⟨q, hq⟩ := Option.isSome_iff_exists.mp hs
  have hqm : q ∈ l := List.mem_of_find?_eq_some hq
  have hqi : f q = f x := by simpa using List.find?_some hq
  rw [hq, List.inj_on_of_nodup_map hnd hqm hmem hqi]

/-- `filterMap` with a function that maps every member to itself is the
identity. -/
lemma filterMap_eq_self {α : Type} (l : List α) (g : α → Option α)
    (h : ∀ x ∈ l, g x = some x) : l.filterMap g = l := by
  induction l with
  | nil => rfl
  | cons x l ih =>
    rw [List.filterMap_cons, h x (by simp)]
    exact congrArg (x :: ·) (ih (fun y hy => h y (by simp [hy])))

/-- Counting products by id in the association listing (one `find?` per
join row) equals counting the join rows carrying that product id, provided
some product with that id exists. -/
lemma countP_filterMap_find? (ps : List Product) (js : List (Nat × Nat)) (pid : Nat)
    (hp : (ps.find? (fun q => q.id = pid)).isSome) :
    (js.filterMap (fun j => ps.find? (fun q => q.id = j.2))).countP (fun q => q.id = pid)
      = js.countP (fun j => j.2 = pid) := by
  induction js with
  | nil => rfl
  | cons j js ih =>
    rw [List.filterMap_cons]
    cases h : ps.find? (fun q => q.id = j.2) with
    | none =>
      have hne : ¬ (j.2 = pid) := by
        intro heq
        rw [heq] at h
        rw [h] at hp
        simp at hp
      rw [ih, List.countP_cons_of_neg _ _ (by simpa using hne)]
    | some q =>
      have hq : q.id = j.2 := by simpa using List.find?_some h
      by_cases hpid : j.2 = pid
      · rw [List.countP_cons_of_pos _ _ (by simp [hq, hpid]),
          List.countP_cons_of_pos _ _ (by simpa using hpid), ih]
      · rw [List.countP_cons_of_neg _ _ (by simp [hq, hpid]),
          List.countP_cons_of_neg _ _ (by simpa using hpid), ih]

/-- Reduction of `get_products_for_order` once the order lookup is known
to succeed. -/
lemma get_products_for_order_eq_ok (s : State) (oid : Nat) (o : Order)
    (h : s.orders.find? (fun x => x.id = oid) = some o) :
    get_products_for_order s oid =
      .ok ((s.joins.filter (fun j => j.1 = oid)).filterMap
        (fun j => s.products.find? (fun q => q.id = j.2))) := by
  unfold get_products_for_order
  rw [h]

/-! ## Claim theorems -/

/-- Claim C1 (code behaviour at the failing input): a CreateOrder request
without an order_date is rejected by the schema with a ValidationError and
the store is unchanged, for every state, clock value, user_id and
product_ids — the default-to-now fallback of src/app.py line 319 is
unreachable because OrderSchema (line 122) marks order_date required. -/
theorem createOrder_missing_date_rejected (s : State) (now uid : Nat)
    (pids : Option (List Nat)) :
    create_order s now ⟨some uid, none, pids⟩ = (.error .validationErr, s) := rfl

/-- Claim C4: when the state already holds a user with email `e`, a valid
CreateUser request with email `e` fails with the duplicate-email response
(a ConflictError in the spec's classification) and the store is unchanged;
consequently, after any successful CreateUser with email `e`, a second
CreateUser with email `e` fails. -/
theorem createUser_duplicate_email (s : State) (n e : String)
    (a : Option (Option String))
    (hn : 1 ≤ n.length) (he : isEmailFormat e = true)
    (hex : ∃ u ∈ s.users, u.email = e) :
    create_user s ⟨some n, some e, a⟩ = (.error .emailExists, s) ∧
    Err.emailExists.kind = .conflict ∧
    (∀ s₀ u s₁ n' a', create_user s₀ ⟨some n', some e, a'⟩ = (.ok u, s₁) →
      create_user s₁ ⟨some n, some e, a⟩ = (.error .emailExists, s₁)) := by
  have hn0 : ¬ n.length = 0 := by omega
  refine ⟨by simp [create_user, hn0, he, hex], rfl, ?_⟩
  intro s₀ u s₁ n' a' h
  by_cases h1 : n'.length = 0 ∨ isEmailFormat e = false
  · simp [create_user, h1] at h
  · by_cases h2 : ∃ x ∈ s₀.users, x.email = e
    · simp [create_user, h1, h2] at h
    · simp [create_user, h1, h2] at h
      obtain ⟨hu, hs⟩ := h
      have hex1 : ∃ x ∈ s₁.users, x.email = e := by
        refine ⟨⟨s₀.nextUserId, n', a'.getD none, e⟩, ?_, rfl⟩
        rw [← hs]
        simp
      simp [create_user, hn0, he, hex1]

/-- Claim C5: UpdateUser of an existing user with a payload supplying only
the address succeeds and changes only the address: the stored user keeps
its name and email (and id), every other user row is untouched, and the
other relations are untouched. -/
theorem updateUser_address_only (s : State) (uid : Nat) (a : Option String) (u : User)
    (hu : s.users.find? (fun v => v.id = uid) = some u) :
    ∃ s', update_user s uid ⟨none, none, some a⟩ = (.ok (), s') ∧
      s'.users.find? (fun v => v.id = uid) = some ⟨u.id, u.name, a, u.email⟩ ∧
      (∀ v ∈ s.users, v.id ≠ uid → v ∈ s'.users) ∧
      s'.users.length = s.users.length ∧
      s'.products = s.products ∧ s'.orders = s.orders ∧ s'.joins = s.joins := by
  have hid : u.id = uid := by simpa using List.find?_some hu
  have key : update_user s uid ⟨none, none, some a⟩ =
      (.ok (), { s with users := s.users.map (fun v => if v.id = uid then ⟨u.id, u.name, a, u.email⟩ else v) }) := by
    simp [update_user, hu]
  refine ⟨_, key, ?_, ?_, by simp, rfl, rfl, rfl⟩
  · exact find?_map_update User.id s.users uid ⟨u.id, u.name, a, u.email⟩ hid u hu
  · intro v hv hne
    exact List.mem_map.mpr ⟨v, hv, by simp [hne]⟩

/-- Claim C10: UpdateUser with an empty partial payload on an existing
user succeeds and leaves the store exactly as it was, and likewise
UpdateProduct with an empty payload on an existing product (primary keys
are unique, as the store enforces). -/
theorem update_empty_is_identity (s : State) (uid pid : Nat)
    (hu : (s.users.find? (fun v => v.id = uid)).isSome)
    (hp : (s.products.find? (fun q => q.id = pid)).isSome)
    (hndU : (s.users.map User.id).Nodup)
    (hndP : (s.products.map Product.id).Nodup) :
    update_user s uid ⟨none, none, none⟩ = (.ok (), s) ∧
    update_product s pid ⟨none, none⟩ = (.ok (), s) := by
  obtain ⟨u, hu⟩ := Option.isSome_iff_exists.mp hu
  obtain ⟨q, hq⟩ := Option.isSome_iff_exists.mp hp
  have hidu : u.id = uid := by simpa using List.find?_some hu
  have hidq : q.id = pid := by simpa using List.find?_some hq
  have hmu : u ∈ s.users := List.mem_of_find?_eq_some hu
  have hmq : q ∈ s.products := List.mem_of_find?_eq_some hq
  constructor
  · have h1 : s.users.map (fun v => if v.id = uid then u else v) = s.users :=
      map_update_id User.id s.users uid u hmu hidu hndU
    simp [update_user, hu, h1]
  · have h2 : s.products.map (fun v => if v.id = pid then q else v) = s.products :=
      map_update_id Product.id s.products pid q hmq hidq hndP
    simp [update_product, hq, h2]

/-- Claim C6: DeleteUser on an existing user succeeds and cascades: no
user with that id remains, every order owned by that user is gone (its id
resolves to no order, so the order lookup of ListProductsForOrder fails
with the unknown-order response, a NotFoundError in the spec's
classification) and every join row of those orders is removed (order ids
are unique, as the store enforces). -/
theorem deleteUser_cascades (s : State) (uid : Nat)
    (hu : (s.users.find? (fun v => v.id = uid)).isSome)
    (hndO : (s.orders.map Order.id).Nodup) :
    ∃ s', delete_user s uid = (.ok (), s') ∧
      (∀ v ∈ s'.users, v.id ≠ uid) ∧
      (∀ o ∈ s.orders, o.user_id = uid →
        (∀ o' ∈ s'.orders, o'.id ≠ o.id) ∧
        get_products_for_order s' o.id = .error .invalidOrderId ∧
        (∀ j ∈ s'.joins, j.1 ≠ o.id)) ∧
      Err.invalidOrderId.kind = .notFound := by
  obtain ⟨u, hu⟩ := Option.isSome_iff_exists.mp hu
  have key : delete_user s uid =
      (.ok (), { s with
        users := s.users.filter (fun v => ¬ v.id = uid),
        orders := s.orders.filter (fun o => ¬ o.user_id = uid),
        joins := s.joins.filter (fun j => ¬ ((s.orders.filter (fun o => o.user_id = uid)).map (fun o => o.id)).contains j.1) }) := by
    simp [delete_user, hu]
  refine ⟨_, key, ?_, ?_, rfl⟩
  · intro v hv
    have := (List.mem_filter.mp hv).2
    simpa using this
  · intro o ho houid
    have hord : ∀ o' ∈ s.orders.filter (fun x => ¬ x.user_id = uid), o'.id ≠ o.id := by
      intro o' ho' heq
      have hm := List.mem_filter.mp ho'
      have : o' = o := List.inj_on_of_nodup_map hndO hm.1 ho heq
      rw [this] at hm
      simp [houid] at hm
    refine ⟨hord, ?_, ?_⟩
    · have hnone : s.orders.find?
          (fun x => !decide (x.user_id = uid) && decide (x.id = o.id)) = none := by
        rw [List.find?_eq_none]
        intro x hx
        simp only [Bool.and_eq_true, Bool.not_eq_true', decide_eq_false_iff_not,
          decide_eq_true_eq, not_and]
        intro hx1 hx2
        exact hx1 (by rw [List.inj_on_of_nodup_map hndO hx ho hx2, houid])
      simp [get_products_for_order, hnone]
    · intro j hj
      have hm := (List.mem_filter.mp hj).2
      intro heq
      have hdead : o.id ∈ (s.orders.filter (fun x => x.user_id = uid)).map
          (fun x => x.id) :=
        List.mem_map.mpr ⟨o, List.mem_filter.mpr ⟨ho, by simpa using houid⟩, rfl⟩
      rw [heq] at hm
      simp [List.contains, List.elem_eq_mem, hdead] at hm

/-- Claim C7: RemoveProductFromOrder fails whenever the order id is
unknown, the product id is unknown, or the join row is absent, with a
response the spec classifies as NotFoundError, and the store is unchanged
in every such case. -/
theorem removeProduct_notFound (s : State) (oid pid : Nat)
    (h : (∀ o ∈ s.orders, o.id ≠ oid) ∨ (∀ q ∈ s.products, q.id ≠ pid) ∨
      (oid, pid) ∉ s.joins) :
    ∃ e, remove_product_from_order s oid pid = (.error e, s) ∧
      e.kind = .notFound := by
  cases ho : s.orders.find? (fun o => o.id = oid) with
  | none => exact ⟨.invalidOrderOrProductId, by simp [remove_product_from_order, ho], rfl⟩
  | some o =>
    cases hq : s.products.find? (fun q => q.id = pid) with
    | none => exact ⟨.invalidOrderOrProductId, by simp [remove_product_from_order, ho, hq], rfl⟩
    | some pr =>
      have hom : o ∈ s.orders := List.mem_of_find?_eq_some ho
      have hoid : o.id = oid := by simpa using List.find?_some ho
      have hqm : pr ∈ s.products := List.mem_of_find?_eq_some hq
      have hqid : pr.id = pid := by simpa using List.find?_some hq
      have hnotin : (oid, pid) ∉ s.joins := by
        rcases h with h | h | h
        · exact absurd hoid (h o hom)
        · exact absurd hqid (h pr hqm)
        · exact h
      have hnotin2 : (oid, pr.id) ∉ s.joins := by
        rw [hqid]
        exact hnotin
      exact ⟨.productNotInOrder, by simp [remove_product_from_order, ho, hq, hnotin2], rfl⟩

/-- Claim C2: a CreateOrder request (passing schema validation) whose
product_ids mentions at least one id with no product row fails with the
products-not-found response — classified NotFoundError by the spec — whose
missing list holds exactly the ids of product_ids that have no product
row; the store is returned unchanged, so the check precedes any
mutation. -/
theorem createOrder_missing_products (s : State) (now uid d : Nat) (pids : List Nat)
    (hmiss : ∃ x ∈ pids, ∀ pr ∈ s.products, pr.id ≠ x) :
    ∃ missing, create_order s now ⟨some uid, some d, some pids⟩ =
        (.error (.productsNotFound missing), s) ∧
      missing ≠ [] ∧
      (∀ x, x ∈ missing ↔ x ∈ pids ∧ ∀ pr ∈ s.products, pr.id ≠ x) ∧
      (Err.productsNotFound missing).kind = .notFound := by
  have hchar : ∀ x, (x ∈ pids.filter (fun y =>
        ¬ ((s.products.filter (fun pr => pids.contains pr.id)).map (fun pr => pr.id)).contains y)) ↔
      (x ∈ pids ∧ ∀ pr ∈ s.products, pr.id ≠ x) := by
    intro x
    simp only [List.mem_filter, List.elem_eq_mem, List.mem_map, List.mem_filter,
      decide_eq_true_eq, Bool.not_eq_true', decide_eq_false_iff_not, not_exists, not_and]
    constructor
    · rintro ⟨hx, hno⟩
      refine ⟨hx, fun pr hpr heq => hno pr ⟨hpr, ?_⟩ heq⟩
      simpa [heq] using hx
    · rintro ⟨hx, hno⟩
      exact ⟨hx, fun pr hpr heq => hno pr hpr.1 heq⟩
  obtain ⟨x0, hx0, hnx0⟩ := hmiss
  have hne : pids.filter (fun y =>
      ¬ ((s.products.filter (fun pr => pids.contains pr.id)).map (fun pr => pr.id)).contains y) ≠ [] :=
    List.ne_nil_of_mem ((hchar x0).mpr ⟨hx0, hnx0⟩)
  refine ⟨_, ?_, hne, hchar, rfl⟩
  simp only [create_order, Option.getD_some]
  rw [if_pos hne]

/-- Claim C8: ListOrdersForUser returns a permutation of exactly the
orders whose user_id matches (membership is equivalent to owning the
order), sorted by order_date descending; there is no existence check, so
when no order has that user_id — in particular for a nonexistent user —
it returns the empty list. -/
theorem listOrdersForUser_sorted (s : State) (uid : Nat) :
    List.Perm (get_orders_for_user s uid) (s.orders.filter (fun o => o.user_id = uid)) ∧
    (get_orders_for_user s uid).Pairwise (fun a b => b.order_date ≤ a.order_date) ∧
    (∀ o, o ∈ get_orders_for_user s uid ↔ o ∈ s.orders ∧ o.user_id = uid) ∧
    ((∀ o ∈ s.orders, o.user_id ≠ uid) → get_orders_for_user s uid = []) := by
  have hperm : List.Perm (get_orders_for_user s uid)
      (s.orders.filter (fun o => o.user_id = uid)) :=
    List.mergeSort_perm _ _
  refine ⟨hperm, ?_, ?_, ?_⟩
  · have hs := @List.sorted_mergeSort Order
      (fun a b : Order => decide (b.order_date ≤ a.order_date))
      (fun a b c hab hbc => by
        simp only [decide_eq_true_eq] at hab hbc ⊢
        omega)
      (fun a b => by
        simp only [Bool.or_eq_true, decide_eq_true_eq]
        omega)
      (s.orders.filter (fun o => o.user_id = uid))
    exact hs.imp (fun h => by simpa using h)
  · intro o
    rw [hperm.mem_iff]
    simp
  · intro hnone
    have hfil : s.orders.filter (fun o => o.user_id = uid) = [] := by
      rw [List.filter_eq_nil_iff]
      intro o ho
      simpa using hnone o ho
    have : get_orders_for_user s uid = s.orders.filter (fun o => o.user_id = uid) :=
      List.Perm.eq_nil (hfil ▸ hperm) ▸ hfil.symm
    rw [this, hfil]

/-- Claim C3: AddProductToOrder on an existing order and product is
idempotent: the first call succeeds, the second call succeeds and leaves
the store exactly as after the first, the join relation then holds the
(order_id, product_id) link exactly once, and ListProductsForOrder lists
the product exactly once (the store starts with at most one copy of the
link, as the unique constraint enforces). -/
theorem addProduct_idempotent (s : State) (oid pid : Nat)
    (ho : (s.orders.find? (fun o => o.id = oid)).isSome)
    (hp : (s.products.find? (fun q => q.id = pid)).isSome)
    (hdup : s.joins.countP (fun j => j = (oid, pid)) ≤ 1) :
    ∃ s₁, add_product_to_order s oid pid = (.ok (), s₁) ∧
      add_product_to_order s₁ oid pid = (.ok (), s₁) ∧
      s₁.joins.countP (fun j => j = (oid, pid)) = 1 ∧
      (∃ l, get_products_for_order s₁ oid = .ok l ∧
        l.countP (fun q => q.id = pid) = 1) := by
  obtain ⟨o, ho⟩ := Option.isSome_iff_exists.mp ho
  obtain ⟨pr, hq⟩ := Option.isSome_iff_exists.mp hp
  have hqid : pr.id = pid := by simpa using List.find?_some hq
  have listing : ∀ s₁ : State, s₁.orders = s.orders → s₁.products = s.products →
      s₁.joins.countP (fun j => j = (oid, pid)) = 1 →
      ∃ l, get_products_for_order s₁ oid = .ok l ∧
        l.countP (fun q => q.id = pid) = 1 := by
    intro s₁ hso hsp hcount
    refine ⟨(s₁.joins.filter (fun j => j.1 = oid)).filterMap
      (fun j => s₁.products.find? (fun q => q.id = j.2)), ?_, ?_⟩
    · have hfind : s₁.orders.find? (fun x => x.id = oid) = some o := by
        rw [hso]
        exact ho
      simp [get_products_for_order, hfind]
    · rw [countP_filterMap_find? _ _ pid (by rw [hsp, hq]; rfl),
        List.countP_filter]
      rw [← hcount]
      apply List.countP_congr
      intro j hj
      constructor
      · intro hjj
        simp only [Bool.and_eq_true, decide_eq_true_eq] at hjj
        simp [Prod.ext_iff, hjj.1, hjj.2]
      · intro hjj
        simp only [decide_eq_true_eq] at hjj
        simp [hjj]
  by_cases hmem : (oid, pid) ∈ s.joins
  · have key : add_product_to_order s oid pid = (.ok (), s) := by
      simp [add_product_to_order, ho, hq, hqid, hmem]
    have hcount : s.joins.countP (fun j => j = (oid, pid)) = 1 := by
      have h1 : 0 < s.joins.countP (fun j => j = (oid, pid)) :=
        List.countP_pos_iff.mpr ⟨(oid, pid), hmem, by simp⟩
      omega
    exact ⟨s, key, key, hcount, listing s rfl rfl hcount⟩
  · have key : add_product_to_order s oid pid =
        (.ok (), { s with joins := s.joins ++ [(oid, pid)] }) := by
      simp [add_product_to_order, ho, hq, hqid, hmem]
    have key2 : add_product_to_order { s with joins := s.joins ++ [(oid, pid)] } oid pid =
        (.ok (), { s with joins := s.joins ++ [(oid, pid)] }) := by
      simp [add_product_to_order, ho, hq, hqid]
    have hcount : (s.joins ++ [(oid, pid)]).countP (fun j => j = (oid, pid)) = 1 := by
      rw [List.countP_append]
      have h0 : s.joins.countP (fun j => j = (oid, pid)) = 0 := by
        rw [List.countP_eq_zero]
        intro j hj
        simp only [decide_eq_true_eq]
        intro hjj
        rw [hjj] at hj
        exact hmem hj
      simp [h0]
    exact ⟨_, key, key2, hcount, listing _ rfl rfl hcount⟩

/-- A successful CreateOrder attaches exactly the distinct existing
products named by product_ids: the order is created with the next
generated id and ListProductsForOrder on it yields a duplicate-free
listing whose ids are exactly the members of product_ids. -/
lemma createOrder_attach (s : State) (now uid d : Nat) (pids : List Nat)
    (hex : ∀ x ∈ pids, ∃ pr ∈ s.products, pr.id = x)
    (hnd : (s.products.map Product.id).Nodup)
    (hfresh : ∀ j ∈ s.joins, j.1 ≠ s.nextOrderId)
    (huser : ∃ u ∈ s.users, u.id = uid) :
    ∃ s', create_order s now ⟨some uid, some d, some pids⟩ =
        (.ok ⟨s.nextOrderId, d, uid⟩, s') ∧
      ∃ l, get_products_for_order s' s.nextOrderId = .ok l ∧
        (l.map (fun q => q.id)).Nodup ∧
        (∀ x, x ∈ l.map (fun q => q.id) ↔ x ∈ pids) := by
  have hmiss : pids.filter (fun y =>
      ¬ ((s.products.filter (fun pr => pids.contains pr.id)).map (fun pr => pr.id)).contains y) = [] := by
    rw [List.filter_eq_nil_iff]
    intro x hx
    obtain ⟨pr, hpr, hid⟩ := hex x hx
    simp only [List.elem_eq_mem, List.mem_map, List.mem_filter, decide_eq_true_eq,
      Bool.not_eq_true', decide_eq_false_iff_not, not_not]
    exact ⟨pr, ⟨hpr, by simpa [hid] using hx⟩, hid⟩
  have hall : ¬ (s.users.all (fun u => ¬ u.id = uid)) = true := by
    obtain ⟨u, hu, hid⟩ := huser
    rw [List.all_eq_true]
    intro hcontra
    simpa [hid] using hcontra u hu
  have key : create_order s now ⟨some uid, some d, some pids⟩ =
      (.ok ⟨s.nextOrderId, d, uid⟩, { s with
        orders := s.orders ++ [⟨s.nextOrderId, d, uid⟩],
        joins := s.joins ++ (s.products.filter (fun pr => pids.contains pr.id)).map
          (fun pr => (s.nextOrderId, pr.id)),
        nextOrderId := s.nextOrderId + 1 }) := by
    simp only [create_order, Option.getD_some]
    rw [if_neg (by simpa using hmiss), if_neg hall]
  refine ⟨_, key, ?_⟩
  have hfind : (s.orders ++ [(⟨s.nextOrderId, d, uid⟩ : Order)]).find?
      (fun x => x.id = s.nextOrderId) |>.isSome := by
    rw [List.find?_isSome]
    exact ⟨⟨s.nextOrderId, d, uid⟩, by simp, by simp⟩
  obtain ⟨o₀, ho₀⟩ := Option.isSome_iff_exists.mp hfind
  have hjoins : (s.joins ++ (s.products.filter (fun pr => pids.contains pr.id)).map
        (fun pr => (s.nextOrderId, pr.id))).filter (fun j => j.1 = s.nextOrderId)
      = (s.products.filter (fun pr => pids.contains pr.id)).map
        (fun pr => (s.nextOrderId, pr.id)) := by
    rw [List.filter_append]
    rw [show s.joins.filter (fun j => j.1 = s.nextOrderId) = [] from
      List.filter_eq_nil_iff.mpr (fun j hj => by simpa using hfresh j hj)]
    rw [List.filter_eq_self.mpr (fun j hj => by
      obtain ⟨pr, hpr, heq⟩ := List.mem_map.mp hj
      simp [← heq])]
    simp
  have hlist : ((s.products.filter (fun pr => pids.contains pr.id)).map
        (fun pr => (s.nextOrderId, pr.id))).filterMap
        (fun j => s.products.find? (fun q => q.id = j.2))
      = s.products.filter (fun pr => pids.contains pr.id) := by
    rw [List.filterMap_map]
    exact filterMap_eq_self _ _ (fun pr hpr =>
      find?_key_self Product.id s.products hnd pr (List.mem_filter.mp hpr).1)
  refine ⟨s.products.filter (fun pr => pids.contains pr.id), ?_, ?_, ?_⟩
  · rw [get_products_for_order_eq_ok _ _ o₀ ho₀]
    dsimp only
    rw [hjoins, hlist]
  · exact List.Nodup.sublist
      (List.Sublist.map _ (List.filter_sublist s.products)) hnd
  · intro x
    simp only [List.mem_map, List.mem_filter, List.elem_eq_mem, decide_eq_true_eq]
    constructor
    · rintro ⟨pr, ⟨_, hin⟩, heq⟩
      rw [← heq]
      exact hin
    · intro hx
      obtain ⟨pr, hpr, hid⟩ := hex x hx
      exact ⟨pr, ⟨hpr, by rw [hid]; exact hx⟩, hid⟩

/-- Claim C9: for existing products, CreateOrder with product_ids followed
by ListProductsForOrder on the new order returns exactly the set of
supplied ids — no duplicates even when product_ids repeats an id — and a
permutation of product_ids yields the same set (id uniqueness and the
freshness of the generated order id are store invariants). -/
theorem createOrder_roundtrip (s : State) (now uid d : Nat) (pids pids' : List Nat)
    (hperm : List.Perm pids pids')
    (hex : ∀ x ∈ pids, ∃ pr ∈ s.products, pr.id = x)
    (hnd : (s.products.map Product.id).Nodup)
    (hfresh : ∀ j ∈ s.joins, j.1 ≠ s.nextOrderId)
    (huser : ∃ u ∈ s.users, u.id = uid) :
    ∃ s₁ s₂ l₁ l₂,
      create_order s now ⟨some uid, some d, some pids⟩ = (.ok ⟨s.nextOrderId, d, uid⟩, s₁) ∧
      get_products_for_order s₁ s.nextOrderId = .ok l₁ ∧
      (l₁.map (fun q => q.id)).Nodup ∧
      (∀ x, x ∈ l₁.map (fun q => q.id) ↔ x ∈ pids) ∧
      create_order s now ⟨some uid, some d, some pids'⟩ = (.ok ⟨s.nextOrderId, d, uid⟩, s₂) ∧
      get_products_for_order s₂ s.nextOrderId = .ok l₂ ∧
      (∀ x, x ∈ l₂.map (fun q => q.id) ↔ x ∈ l₁.map (fun q => q.id)) := by
  obtain ⟨s₁, k1, l₁, k2, k3, k4⟩ := createOrder_attach s now uid d pids hex hnd hfresh huser
  obtain ⟨s₂, m1, l₂, m2, m3, m4⟩ := createOrder_attach s now uid d pids'
    (fun x hx => hex x (hperm.mem_iff.mpr hx)) hnd hfresh huser
  exact ⟨s₁, s₂, l₁, l₂, k1, k2, k3, k4, m1, m2,
    fun x => by rw [m4 x, k4 x, hperm.mem_iff]⟩

/-! ## Concrete instantiations

A small concrete store exercising every hypothesis of the theorems
above. -/

/-- A concrete store: two users, two products, three orders, three join
rows. -/
def sW : State :=
  { users := [⟨1, "Ann", none, "ann@x.io"⟩, ⟨2, "Bob", some "st", "bob@x.io"⟩],
    products := [⟨1, "pen", 3⟩, ⟨2, "ink", 5⟩],
    orders := [⟨1, 50, 1⟩, ⟨2, 70, 1⟩, ⟨3, 60, 2⟩],
    joins := [(1, 1), (2, 1), (2, 2)],
    nextUserId := 3, nextProductId := 3, nextOrderId := 4 }

/-- Claim C4 at a concrete input: the store already holds a user with
email ann@x.io, so creating another user with that email conflicts. -/
theorem createUser_duplicate_email_witness :
    create_user sW ⟨some "Cyd", some "ann@x.io", none⟩ = (.error .emailExists, sW) ∧
    Err.emailExists.kind = .conflict ∧
    (∀ s₀ u s₁ n' a', create_user s₀ ⟨some n', some "ann@x.io", a'⟩ = (.ok u, s₁) →
      create_user s₁ ⟨some "Cyd", some "ann@x.io", none⟩ = (.error .emailExists, s₁)) :=
  createUser_duplicate_email sW "Cyd" "ann@x.io" none (by decide) (by decide) (by decide)

/-- Claim C5 at a concrete input: updating user 1 with only an address. -/
theorem updateUser_address_only_witness :
    ∃ s', update_user sW 1 ⟨none, none, some (some "addr")⟩ = (.ok (), s') ∧
      s'.users.find? (fun v => v.id = 1) = some ⟨1, "Ann", some "addr", "ann@x.io"⟩ ∧
      (∀ v ∈ sW.users, v.id ≠ 1 → v ∈ s'.users) ∧
      s'.users.length = sW.users.length ∧
      s'.products = sW.products ∧ s'.orders = sW.orders ∧ s'.joins = sW.joins :=
  updateUser_address_only sW 1 (some "addr") ⟨1, "Ann", none, "ann@x.io"⟩ (by decide)

/-- Claim C10 at a concrete input: empty partial updates of user 1 and
product 2 leave the store untouched. -/
theorem update_empty_is_identity_witness :
    update_user sW 1 ⟨none, none, none⟩ = (.ok (), sW) ∧
    update_product sW 2 ⟨none, none⟩ = (.ok (), sW) :=
  update_empty_is_identity sW 1 2 (by decide) (by decide) (by decide) (by decide)

/-- Claim C6 at a concrete input: deleting user 1 removes orders 1 and 2
and their join rows. -/
theorem deleteUser_cascades_witness :
    ∃ s', delete_user sW 1 = (.ok (), s') ∧
      (∀ v ∈ s'.users, v.id ≠ 1) ∧
      (∀ o ∈ sW.orders, o.user_id = 1 →
        (∀ o' ∈ s'.orders, o'.id ≠ o.id) ∧
        get_products_for_order s' o.id = .error .invalidOrderId ∧
        (∀ j ∈ s'.joins, j.1 ≠ o.id)) ∧
      Err.invalidOrderId.kind = .notFound :=
  deleteUser_cascades sW 1 (by decide) (by decide)

/-- Claim C7 at a concrete input: order 1 and product 2 exist but are not
linked, so removal fails and the store is unchanged. -/
theorem removeProduct_notFound_witness :
    ∃ e, remove_product_from_order sW 1 2 = (.error e, sW) ∧
      e.kind = .notFound :=
  removeProduct_notFound sW 1 2 (Or.inr (Or.inr (by decide)))

/-- Claim C2 at a concrete input: product id 5 does not exist, so an order
naming it is rejected with the missing list and nothing changes. -/
theorem createOrder_missing_products_witness :
    ∃ missing, create_order sW 100 ⟨some 1, some 90, some [1, 5]⟩ =
        (.error (.productsNotFound missing), sW) ∧
      missing ≠ [] ∧
      (∀ x, x ∈ missing ↔ x ∈ [1, 5] ∧ ∀ pr ∈ sW.products, pr.id ≠ x) ∧
      (Err.productsNotFound missing).kind = .notFound :=
  createOrder_missing_products sW 100 1 90 [1, 5] (by decide)

/-- Claim C3 at a concrete input: adding product 2 to order 1 twice. -/
theorem addProduct_idempotent_witness :
    ∃ s₁, add_product_to_order sW 1 2 = (.ok (), s₁) ∧
      add_product_to_order s₁ 1 2 = (.ok (), s₁) ∧
      s₁.joins.countP (fun j => j = (1, 2)) = 1 ∧
      (∃ l, get_products_for_order s₁ 1 = .ok l ∧
        l.countP (fun q => q.id = 2) = 1) :=
  addProduct_idempotent sW 1 2 (by decide) (by decide) (by decide)

/-- Claim C8 at a concrete input: listing the orders of user 1. -/
theorem listOrdersForUser_sorted_witness :
    List.Perm (get_orders_for_user sW 1) (sW.orders.filter (fun o => o.user_id = 1)) ∧
    (get_orders_for_user sW 1).Pairwise (fun a b => b.order_date ≤ a.order_date) ∧
    (∀ o, o ∈ get_orders_for_user sW 1 ↔ o ∈ sW.orders ∧ o.user_id = 1) ∧
    ((∀ o ∈ sW.orders, o.user_id ≠ 1) → get_orders_for_user sW 1 = []) :=
  listOrdersForUser_sorted sW 1

/-- Claim C9 at a concrete input: an order over products [1, 2] and over
the permuted [2, 1]. -/
theorem createOrder_roundtrip_witness :
    ∃ s₁ s₂ l₁ l₂,
      create_order sW 100 ⟨some 1, some 90, some [1, 2]⟩ = (.ok ⟨sW.nextOrderId, 90, 1⟩, s₁) ∧
      get_products_for_order s₁ sW.nextOrderId = .ok l₁ ∧
      (l₁.map (fun q => q.id)).Nodup ∧
      (∀ x, x ∈ l₁.map (fun q => q.id) ↔ x ∈ [1, 2]) ∧
      create_order sW 100 ⟨some 1, some 90, some [2, 1]⟩ = (.ok ⟨sW.nextOrderId, 90, 1⟩, s₂) ∧
      get_products_for_order s₂ sW.nextOrderId = .ok l₂ ∧
      (∀ x, x ∈ l₂.map (fun q => q.id) ↔ x ∈ l₁.map (fun q => q.id)) :=
  createOrder_roundtrip sW 100 1 90 [1, 2] [2, 1]
    (by decide) (by decide) (by decide) (by decide) (by decide)

end EcommerceApi
